import Mathlib

/-!
Shallow embedding of the ASRT acoustic-model module
`model_zoo/speech_model/keras_backend.py`, together with the post-decode
blank-tail trimmer it imports from `utils.ops`.

Conventions of the embedding:
* Exception-raising Python code is embedded as `Except String`, carrying the
  exception message.
* Machine integers of the label sequences are embedded as `Int` (the decoded
  label values, including the blank padding value, are small signed integers
  and no overflowing arithmetic is performed on them).
* Feature values are only ever copied or zero-initialised by the code under
  study (no arithmetic is performed on them), so a frame is embedded as a
  `List Int` of feature values; the numeric carrier type is irrelevant to the
  copying claims.
* The Keras/TensorFlow collaborators (graph construction, `predict`,
  `K.ctc_decode`, HDF5 weight serialisation) are external to the repository;
  the embedding records the data the repository code hands to them (buffer
  contents, decode-call arguments, file names and contents) rather than their
  internals.
-/

namespace ASRT

/-- Modelled from the spec: `ctc_decode_delete_tail_blank` is imported from
`utils.ops` (keras_backend.py line 32), whose source file is not part of the
provided sources.  Per the spec: scan from the end of the sequence backward;
while the last element equals the designated blank value, remove it; stop at
the first non-blank trailing element (or when the sequence becomes empty).
Equivalently: drop the maximal contiguous trailing run of the blank value. -/
def ctc_decode_delete_tail_blank (s : List Int) (blank : Int) : List Int :=
  (s.reverse.dropWhile (fun x => x == blank)).reverse

/-- The configuration record every concrete topology constructor builds
(keras_backend.py: `__init__` of each variant).  Fields mirror
`self.input_shape`, `self._pool_size`, `self.output_shape` and
`self._model_name` (leading underscores dropped). -/
structure ModelShapes where
  input_shape : Nat × Nat × Nat
  pool_size : Nat
  output_shape : Nat × Nat
  model_name : String

/-- `SpeechModel251BN.__init__` (keras_backend.py lines 122-134): stores the
input shape, sets `_pool_size = 8`, derives
`output_shape = (input_shape[0] // _pool_size, output_size)` and the model
name `SpeechModel251bn`. -/
def SpeechModel251BN_init (input_shape : Nat × Nat × Nat) (output_size : Nat) :
    ModelShapes :=
  let pool_size := 8
  ⟨input_shape, pool_size, (input_shape.1 / pool_size, output_size), "SpeechModel251bn"⟩

/-- `SpeechModel251.__init__` (keras_backend.py lines 261-267). -/
def SpeechModel251_init (input_shape : Nat × Nat × Nat) (output_size : Nat) :
    ModelShapes :=
  let pool_size := 8
  ⟨input_shape, pool_size, (input_shape.1 / pool_size, output_size), "SpeechModel251"⟩

/-- `SpeechModel25.__init__` (keras_backend.py lines 367-373). -/
def SpeechModel25_init (input_shape : Nat × Nat × Nat) (output_size : Nat) :
    ModelShapes :=
  let pool_size := 8
  ⟨input_shape, pool_size, (input_shape.1 / pool_size, output_size), "SpeechModel25"⟩

/-- `SpeechModel24.__init__` (keras_backend.py lines 467-473). -/
def SpeechModel24_init (input_shape : Nat × Nat × Nat) (output_size : Nat) :
    ModelShapes :=
  let pool_size := 8
  ⟨input_shape, pool_size, (input_shape.1 / pool_size, output_size), "SpeechModel24"⟩

/-- `BaseModel.get_loss_function` (keras_backend.py lines 88-89):
`raise Exception("method not implemented")`.  The loss-mapping result type
(a dict from loss name to a two-argument loss computation over tensors of an
arbitrary carrier type `W`) is the type the concrete overrides return. -/
def BaseModel.get_loss_function (W : Type) :
    Except String (List (String × (W → W → W))) :=
  Except.error "method not implemented"

/-- `BaseModel.forward` (keras_backend.py lines 91-92):
`raise Exception("method not implemented")`. -/
def BaseModel.forward (W : Type) (x : W) : Except String (List Int) :=
  Except.error "method not implemented"

/-- `SpeechModel251BN.get_loss_function` (keras_backend.py lines 221-222):
`return {'ctc': lambda y_true, y_pred: y_pred}`. -/
def SpeechModel251BN.get_loss_function (W : Type) : List (String × (W → W → W)) :=
  [("ctc", fun _y_true y_pred => y_pred)]

/-- `SpeechModel251.get_loss_function` (keras_backend.py lines 327-328). -/
def SpeechModel251.get_loss_function (W : Type) : List (String × (W → W → W)) :=
  [("ctc", fun _y_true y_pred => y_pred)]

/-- `SpeechModel25.get_loss_function` (keras_backend.py lines 427-428). -/
def SpeechModel25.get_loss_function (W : Type) : List (String × (W → W → W)) :=
  [("ctc", fun _y_true y_pred => y_pred)]

/-- `SpeechModel24.get_loss_function` (keras_backend.py lines 522-523). -/
def SpeechModel24.get_loss_function (W : Type) : List (String × (W → W → W)) :=
  [("ctc", fun _y_true y_pred => y_pred)]

/-- One frame of a feature sequence: a vector of feature values.  The code
under study only copies frames and zero-fills, so the carrier is `Int`. -/
abbrev Frame := List Int

/-- An all-zero frame of the given feature width, as produced by `np.zeros`. -/
def zeroFrame (width : Nat) : Frame := List.replicate width 0

/-- The numpy slice assignment `x_in[i, 0:len(data_input)] = data_input`
(keras_backend.py lines 232-233) on the time axis of a single utterance
buffer.  The slice `0:n` of an axis of size `L` has length `min n L`
(Python slice clamping).  Assignment succeeds when the source length matches
the slice length exactly, or broadcasts when the source has length one
(numpy broadcasting of a size-one leading axis); any other mismatch raises a
broadcast `ValueError`. -/
def slice_assign (buffer : List Frame) (data : List Frame) :
    Except String (List Frame) :=
  if data.length = min data.length buffer.length then
    Except.ok (data ++ buffer.drop data.length)
  else if data.length = 1 then
    Except.ok (List.replicate (min data.length buffer.length) (data.headD []) ++
      buffer.drop (min data.length buffer.length))
  else
    Except.error "could not broadcast input array"

/-- The arguments `forward` hands to the external decode procedure
`K.ctc_decode(base_pred, in_len, greedy=True, beam_width=100, top_paths=1)`
(keras_backend.py line 236).  `seq_length` records `in_len[0]`. -/
structure CtcDecodeCall where
  seq_length : Nat
  greedy : Bool
  beam_width : Nat
  top_paths : Nat
  deriving DecidableEq

/-- The deterministic data-preparation steps of `forward`
(keras_backend.py lines 224-236, identical in all four variants):
set `in_len[0] = self.output_shape[0]`, allocate
`x_in = np.zeros((1,) + self.input_shape)`, copy the utterance into it with
`x_in[i, 0:len(data_input)] = data_input`, then call `K.ctc_decode` with
`in_len` and the fixed decode options.  The embedding returns the filled
buffer and the decode-call record; the numeric prediction in between is an
external collaborator and carries no repository logic. -/
def forward_steps (m : ModelShapes) (data : List Frame) :
    Except String (List Frame × CtcDecodeCall) :=
  match slice_assign (List.replicate m.input_shape.1 (zeroFrame m.input_shape.2.1)) data with
  | Except.ok x_in => Except.ok (x_in, ⟨m.output_shape.1, true, 100, 1⟩)
  | Except.error e => Except.error e

/-- Content of a file written or read by the checkpoint code: either a
serialised parameter set (carrier type `W`) or plain text. -/
inductive FileContent (W : Type) where
  | weights (w : W)
  | text (s : String)
  deriving DecidableEq

/-- A file system as an association list from path to content; the most
recent write of a path shadows older entries, and `List.lookup` reads the
most recent one. -/
abbrev FileSystem (W : Type) := List (String × FileContent W)

/-- Writing one file: the new entry shadows any previous content. -/
def writeFile {W : Type} (fs : FileSystem W) (path : String) (c : FileContent W) :
    FileSystem W :=
  (path, c) :: fs

/-- `BaseModel.save_weights` (keras_backend.py lines 76-85):
`self.model.save_weights(filename + '.model.h5')`,
`self.model_base.save_weights(filename + '.model.base.h5')`, then write the
text file `'epoch_' + self._model_name + '.txt'` whose content is `filename`.
The training graph and the inference graph share all learnable parameters
(the training graph is a wrapper over the inference graph plus the CTC loss),
so both parameter files carry the same parameter value `w`. -/
def save_weights {W : Type} (model_name : String) (w : W) (fs : FileSystem W)
    (filename : String) : FileSystem W :=
  let fs1 := writeFile fs (filename ++ ".model.h5") (FileContent.weights w)
  let fs2 := writeFile fs1 (filename ++ ".model.base.h5") (FileContent.weights w)
  writeFile fs2 ("epoch_" ++ model_name ++ ".txt") (FileContent.text filename)

/-- `BaseModel.load_weights` (keras_backend.py lines 72-73):
`self.model.load_weights(filename)` — the framework opens the file at
exactly the given path.  Modelled from the spec: the serialisation format is
external; restoring from a missing or non-weight file fails with an I/O or
format error, and restoring from a weight file yields the stored parameters. -/
def load_weights {W : Type} (fs : FileSystem W) (filename : String) :
    Except String W :=
  match fs.lookup filename with
  | some (FileContent.weights w) => Except.ok w
  | some (FileContent.text _) => Except.error "invalid weights file"
  | none => Except.error "file not found"

/- ------------------------------------------------------------------ -/
/- Helper lemmas                                                       -/
/- ------------------------------------------------------------------ -/

theorem trim_prefix_self (s : List Int) (b : Int) :
    ctc_decode_delete_tail_blank s b <+: s := by
  rw [← List.reverse_suffix]
  unfold ctc_decode_delete_tail_blank
  rw [List.reverse_reverse]
  exact List.dropWhile_suffix _

theorem trim_getLast_ne (s : List Int) (b : Int) :
    ctc_decode_delete_tail_blank s b = [] ∨
      (ctc_decode_delete_tail_blank s b).getLast? ≠ some b := by
  unfold ctc_decode_delete_tail_blank
  have h := List.head?_dropWhile_not (fun x => x == b) s.reverse
  cases hd : s.reverse.dropWhile (fun x => x == b) with
  | nil => left; simp [hd]
  | cons x xs =>
    right
    rw [hd] at h
    have hx : ¬x = b := by simpa using h
    simp [hx]

theorem suffix_length_le_dropWhile (p : Int → Bool) (l : List Int) :
    ∀ u : List Int, u <:+ l → (u = [] ∨ ∃ x xs, u = x :: xs ∧ p x = false) →
      u.length ≤ (l.dropWhile p).length := by
  induction l with
  | nil =>
    intro u hu _
    simp [List.suffix_nil.mp hu]
  | cons a l ih =>
    intro u hu hcond
    rcases List.suffix_cons_iff.mp hu with h | h
    · subst h
      rcases hcond with h0 | ⟨x, xs, hx, hpx⟩
      · cases h0
      · injection hx with h1 h2
        subst h1
        subst h2
        rw [List.dropWhile_cons]
        simp [hpx]
    · have hle := ih u h hcond
      rw [List.dropWhile_cons]
      by_cases hpa : p a = true
      · simpa [hpa] using hle
      · have hul := List.IsSuffix.length_le h
        rw [if_neg hpa]
        simp only [List.length_cons]
        omega

theorem trim_maximal (s : List Int) (b : Int) (t : List Int) (ht : t <+: s)
    (hlast : t = [] ∨ t.getLast? ≠ some b) :
    t.length ≤ (ctc_decode_delete_tail_blank s b).length := by
  have hsuf : t.reverse <:+ s.reverse := List.reverse_suffix.mpr ht
  have hcond : t.reverse = [] ∨
      ∃ x xs, t.reverse = x :: xs ∧ (x == b) = false := by
    rcases hlast with h | h
    · left; simp [h]
    · cases htr : t.reverse with
      | nil => left; rfl
      | cons x xs =>
        right
        refine ⟨x, xs, rfl, ?_⟩
        have hgl : t.getLast? = some x := by
          rw [← List.head?_reverse, htr]; rfl
        simp only [beq_eq_false_iff_ne, ne_eq]
        intro hxb
        exact h (by rw [hgl, hxb])
  have hlen := suffix_length_le_dropWhile (fun x => x == b) s.reverse
    t.reverse hsuf hcond
  simpa [ctc_decode_delete_tail_blank] using hlen

theorem trim_replicate_eq_nil (n : Nat) (b : Int) :
    ctc_decode_delete_tail_blank (List.replicate n b) b = [] := by
  unfold ctc_decode_delete_tail_blank
  rw [List.reverse_replicate, List.dropWhile_replicate]
  simp

theorem trim_eq_self_of_getLast_ne (s : List Int) (b : Int)
    (h : s.getLast? ≠ some b) :
    ctc_decode_delete_tail_blank s b = s := by
  unfold ctc_decode_delete_tail_blank
  cases hr : s.reverse with
  | nil =>
    have hs : s = [] := by
      have := congrArg List.reverse hr
      simpa using this
    simp [hs]
  | cons x xs =>
    have hgl : s.getLast? = some x := by
      rw [← List.head?_reverse, hr]; rfl
    have hxb : (x == b) = false := by
      simp only [beq_eq_false_iff_ne, ne_eq]
      intro hxb
      exact h (by rw [hgl, hxb])
    have hdw : (x :: xs).dropWhile (fun y => y == b) = x :: xs := by
      rw [List.dropWhile_cons, hxb]
      simp
    rw [hdw, ← hr, List.reverse_reverse]

theorem dropWhile_dropWhile_eq (p : Int → Bool) (l : List Int) :
    (l.dropWhile p).dropWhile p = l.dropWhile p := by
  induction l with
  | nil => rfl
  | cons a l ih =>
    rw [List.dropWhile_cons]
    by_cases h : p a = true
    · simpa [h] using ih
    · simp only [h]
      simp [List.dropWhile_cons, h]

theorem slice_assign_of_le (buffer data : List Frame)
    (h : data.length ≤ buffer.length) :
    slice_assign buffer data = Except.ok (data ++ buffer.drop data.length) := by
  unfold slice_assign
  rw [if_pos]
  exact (Nat.min_eq_left h).symm

theorem slice_assign_overflow (buffer data : List Frame)
    (h1 : 0 < buffer.length) (h2 : buffer.length < data.length) :
    slice_assign buffer data = Except.error "could not broadcast input array" := by
  unfold slice_assign
  have hmin : min data.length buffer.length = buffer.length :=
    Nat.min_eq_right (Nat.le_of_lt h2)
  have hA : ¬(data.length = min data.length buffer.length) := by
    rw [hmin]; omega
  have hB : ¬(data.length = 1) := by omega
  rw [if_neg hA, if_neg hB]

theorem drop_replicate_of_le (k n : Nat) (z : Frame) (h : n ≤ k) :
    (List.replicate k z).drop n = List.replicate (k - n) z := by
  obtain ⟨j, rfl⟩ : ∃ j, k = n + j := ⟨k - n, by omega⟩
  rw [← List.append_replicate_replicate]
  rw [List.drop_left' (List.length_replicate n z)]
  congr 1
  omega

theorem forward_steps_of_le (m : ModelShapes) (data : List Frame)
    (h : data.length ≤ m.input_shape.1) :
    forward_steps m data = Except.ok
      (data ++ List.replicate (m.input_shape.1 - data.length)
        (zeroFrame m.input_shape.2.1),
       ⟨m.output_shape.1, true, 100, 1⟩) := by
  have hbuf : slice_assign
      (List.replicate m.input_shape.1 (zeroFrame m.input_shape.2.1)) data
      = Except.ok (data ++ List.replicate (m.input_shape.1 - data.length)
          (zeroFrame m.input_shape.2.1)) := by
    rw [slice_assign_of_le _ _ (by simpa using h)]
    rw [drop_replicate_of_le _ _ _ h]
  unfold forward_steps
  rw [hbuf]

theorem forward_steps_overflow (m : ModelShapes) (data : List Frame)
    (h1 : 0 < m.input_shape.1) (h2 : m.input_shape.1 < data.length) :
    forward_steps m data = Except.error "could not broadcast input array" := by
  have herr : slice_assign
      (List.replicate m.input_shape.1 (zeroFrame m.input_shape.2.1)) data
      = Except.error "could not broadcast input array" := by
    apply slice_assign_overflow
    · simpa using h1
    · simpa using h2
  unfold forward_steps
  rw [herr]

theorem append_txt_ne_append_h5 (a c : String) : a ++ ".txt" ≠ c ++ ".h5" := by
  intro h
  have hd : a.data ++ ".txt".data = c.data ++ ".h5".data := by
    have h2 := congrArg String.data h
    simpa [String.data_append] using h2
  have hne1 : (".txt".data : List Char) ≠ [] := by decide
  have hne2 : (".h5".data : List Char) ≠ [] := by decide
  have h1 := List.getLast?_append_of_ne_nil a.data hne1
  have h2 := List.getLast?_append_of_ne_nil c.data hne2
  rw [hd, h2] at h1
  exact absurd h1 (by decide)

theorem append_base_ne_append_model (a : String) :
    a ++ ".model.base.h5" ≠ a ++ ".model.h5" := by
  intro h
  have hl := congrArg String.length h
  rw [String.length_append, String.length_append] at hl
  have e1 : ".model.base.h5".length = 14 := rfl
  have e2 : ".model.h5".length = 9 := rfl
  rw [e1, e2] at hl
  omega

theorem marker_ne_model_file (name P : String) :
    "epoch_" ++ name ++ ".txt" ≠ P ++ ".model.h5" := by
  have h5 : P ++ ".model.h5" = (P ++ ".model") ++ ".h5" := by
    rw [String.append_assoc]
    rfl
  rw [h5]
  exact append_txt_ne_append_h5 ("epoch_" ++ name) (P ++ ".model")

theorem marker_ne_base_file (name P : String) :
    "epoch_" ++ name ++ ".txt" ≠ P ++ ".model.base.h5" := by
  have h5 : P ++ ".model.base.h5" = (P ++ ".model.base") ++ ".h5" := by
    rw [String.append_assoc]
    rfl
  rw [h5]
  exact append_txt_ne_append_h5 ("epoch_" ++ name) (P ++ ".model.base")

theorem save_weights_eq {W : Type} (name : String) (w : W) (fs : FileSystem W)
    (P : String) :
    save_weights name w fs P =
      ("epoch_" ++ name ++ ".txt", FileContent.text P) ::
        (P ++ ".model.base.h5", FileContent.weights w) ::
          (P ++ ".model.h5", FileContent.weights w) :: fs := rfl

theorem lookup_cons_ne {W : Type} (fs : FileSystem W) (k q : String)
    (c : FileContent W) (h : q ≠ k) :
    ((k, c) :: fs).lookup q = fs.lookup q := by
  have hb : (q == k) = false := beq_eq_false_iff_ne.mpr h
  simp [List.lookup, hb]

theorem lookup_cons_self {W : Type} (fs : FileSystem W) (k : String)
    (c : FileContent W) : ((k, c) :: fs).lookup k = some c := by
  simp [List.lookup]

/- ------------------------------------------------------------------ -/
/- Claim theorems                                                      -/
/- ------------------------------------------------------------------ -/

/-- C1: for every label sequence `s` and blank id `b`,
`ctc_decode_delete_tail_blank s b` returns exactly the longest prefix of `s`
obtained by removing the maximal contiguous trailing run of `b`: the result
is a prefix of `s`; it is empty or its last element is not `b`; it is the
longest such prefix (hence interior occurrences of `b` are preserved
verbatim); the empty input yields the empty output; an all-blank input
yields the empty output; and an input with no trailing blank is returned
unchanged. -/
theorem C1_trim_longest_nonblank_tail (s : List Int) (b : Int) :
    ctc_decode_delete_tail_blank s b <+: s ∧
    (ctc_decode_delete_tail_blank s b = [] ∨
      (ctc_decode_delete_tail_blank s b).getLast? ≠ some b) ∧
    (∀ t : List Int, t <+: s → (t = [] ∨ t.getLast? ≠ some b) →
      t.length ≤ (ctc_decode_delete_tail_blank s b).length) ∧
    ctc_decode_delete_tail_blank ([] : List Int) b = [] ∧
    (∀ n : Nat, ctc_decode_delete_tail_blank (List.replicate n b) b = []) ∧
    (s.getLast? ≠ some b → ctc_decode_delete_tail_blank s b = s) :=
  ⟨trim_prefix_self s b, trim_getLast_ne s b,
   fun t ht hl => trim_maximal s b t ht hl, rfl,
   fun n => trim_replicate_eq_nil n b,
   fun h => trim_eq_self_of_getLast_ne s b h⟩

/-- Witness for C1 at the spec's own example `trim([3,B,5], B) = [3,B,5]`
with `B = 0`: the interior blank is preserved and the input, having no
trailing blank, is returned unchanged. -/
theorem C1_trim_longest_nonblank_tail_witness :
    ([3, 0, 5] : List Int).getLast? ≠ some 0 ∧
      ctc_decode_delete_tail_blank [3, 0, 5] 0 = [3, 0, 5] :=
  ⟨by decide, (C1_trim_longest_nonblank_tail [3, 0, 5] 0).2.2.2.2.2 (by decide)⟩

/-- C2: the blank-tail trimmer is idempotent: trimming an already trimmed
sequence changes nothing. -/
theorem C2_trim_idempotent (s : List Int) (b : Int) :
    ctc_decode_delete_tail_blank (ctc_decode_delete_tail_blank s b) b =
      ctc_decode_delete_tail_blank s b := by
  unfold ctc_decode_delete_tail_blank
  rw [List.reverse_reverse, dropWhile_dropWhile_eq]

/-- C3: every concrete topology variant (SpeechModel251BN, SpeechModel251,
SpeechModel25, SpeechModel24) reports an output sequence length equal to
`input_shape[0] // 8`, and its downsampling factor `_pool_size` is 8. -/
theorem C3_output_length_floor_div8 (s : Nat × Nat × Nat) (os : Nat) :
    ((SpeechModel251BN_init s os).output_shape.1 =
        (SpeechModel251BN_init s os).input_shape.1 / 8 ∧
      (SpeechModel251BN_init s os).pool_size = 8) ∧
    ((SpeechModel251_init s os).output_shape.1 =
        (SpeechModel251_init s os).input_shape.1 / 8 ∧
      (SpeechModel251_init s os).pool_size = 8) ∧
    ((SpeechModel25_init s os).output_shape.1 =
        (SpeechModel25_init s os).input_shape.1 / 8 ∧
      (SpeechModel25_init s os).pool_size = 8) ∧
    ((SpeechModel24_init s os).output_shape.1 =
        (SpeechModel24_init s os).input_shape.1 / 8 ∧
      (SpeechModel24_init s os).pool_size = 8) :=
  ⟨⟨rfl, rfl⟩, ⟨rfl, rfl⟩, ⟨rfl, rfl⟩, ⟨rfl, rfl⟩⟩

/-- C4: invoking `get_loss_function` or `forward` on a directly instantiated
`BaseModel` fails immediately with the exception message
"method not implemented"; neither ever returns a value. -/
theorem C4_base_model_abstract_raises (W : Type) (x : W) :
    BaseModel.get_loss_function W = Except.error "method not implemented" ∧
    BaseModel.forward W x = Except.error "method not implemented" ∧
    (∀ v : List (String × (W → W → W)),
      BaseModel.get_loss_function W ≠ Except.ok v) ∧
    (∀ r : List Int, BaseModel.forward W x ≠ Except.ok r) := by
  refine ⟨rfl, rfl, ?_, ?_⟩
  · intro v hv
    exact Except.noConfusion hv
  · intro r hr
    exact Except.noConfusion hr

/-- Witness for C4 at a concrete carrier type and input. -/
theorem C4_base_model_abstract_raises_witness :
    BaseModel.forward Nat 0 = Except.error "method not implemented" :=
  (C4_base_model_abstract_raises Nat 0).2.1

/-- C5: calling `forward` on a feature sequence strictly longer than the
configured (positive) maximum input length fails with the numpy broadcast
error raised by the copy `x_in[i, 0:len(data_input)] = data_input`; it never
returns a (truncated) buffer. -/
theorem C5_forward_overlong_input_errors (m : ModelShapes) (data : List Frame)
    (h1 : 0 < m.input_shape.1) (h2 : m.input_shape.1 < data.length) :
    forward_steps m data = Except.error "could not broadcast input array" ∧
    ∀ r : List Frame × CtcDecodeCall, forward_steps m data ≠ Except.ok r := by
  have herr := forward_steps_overflow m data h1 h2
  refine ⟨herr, ?_⟩
  intro r hok
  rw [herr] at hok
  exact Except.noConfusion hok

/-- Witness for C5: a model configured for at most 2 frames rejects a
3-frame utterance. -/
theorem C5_forward_overlong_input_errors_witness :
    forward_steps (SpeechModel251BN_init (2, 1, 1) 4) [[0], [0], [0]] =
      Except.error "could not broadcast input array" :=
  (C5_forward_overlong_input_errors (SpeechModel251BN_init (2, 1, 1) 4)
    [[0], [0], [0]] (by decide) (by decide)).1

/-- C6: for a feature sequence of length `n ≤` the configured maximum input
length, `forward` copies it into a fixed-size buffer of exactly the maximum
length whose positions `0..n-1` equal the input frames and whose remaining
positions are zero frames. -/
theorem C6_forward_zero_pads (m : ModelShapes) (data : List Frame)
    (h : data.length ≤ m.input_shape.1) :
    forward_steps m data = Except.ok
      (data ++ List.replicate (m.input_shape.1 - data.length)
        (zeroFrame m.input_shape.2.1),
       ⟨m.output_shape.1, true, 100, 1⟩) ∧
    (data ++ List.replicate (m.input_shape.1 - data.length)
      (zeroFrame m.input_shape.2.1)).length = m.input_shape.1 ∧
    (∀ i : Nat, i < data.length →
      (data ++ List.replicate (m.input_shape.1 - data.length)
        (zeroFrame m.input_shape.2.1)).getD i [] = data.getD i []) ∧
    (∀ i : Nat, data.length ≤ i → i < m.input_shape.1 →
      (data ++ List.replicate (m.input_shape.1 - data.length)
        (zeroFrame m.input_shape.2.1)).getD i [] =
          zeroFrame m.input_shape.2.1) := by
  refine ⟨forward_steps_of_le m data h, ?_, ?_, ?_⟩
  · simp
    omega
  · intro i hi
    rw [List.getD_eq_getElem?_getD, List.getD_eq_getElem?_getD,
      List.getElem?_append_left hi]
  · intro i hi1 hi2
    rw [List.getD_eq_getElem?_getD, List.getElem?_append_right hi1]
    rw [List.getElem?_replicate_of_lt (by omega)]
    rfl

/-- Witness for C6: a 2-frame utterance in a model configured for at most 8
frames of width 2 is zero-padded to 8 frames. -/
theorem C6_forward_zero_pads_witness :
    forward_steps (SpeechModel251BN_init (8, 2, 1) 5) [[1, 2], [3, 4]] =
      Except.ok ([[1, 2], [3, 4]] ++ List.replicate 6 (zeroFrame 2),
        ⟨1, true, 100, 1⟩) :=
  (C6_forward_zero_pads (SpeechModel251BN_init (8, 2, 1) 5) [[1, 2], [3, 4]]
    (by decide)).1

/-- C7: every concrete topology variant returns from `get_loss_function` a
mapping whose only entry is the loss name "ctc", mapped to a loss computation
that ignores `y_true` and returns `y_pred` unchanged. -/
theorem C7_ctc_loss_is_identity (W : Type) (y_true y_pred : W) :
    ((SpeechModel251BN.get_loss_function W).lookup "ctc").map
        (fun f => f y_true y_pred) = some y_pred ∧
    (SpeechModel251BN.get_loss_function W).map Prod.fst = ["ctc"] ∧
    ((SpeechModel251.get_loss_function W).lookup "ctc").map
        (fun f => f y_true y_pred) = some y_pred ∧
    (SpeechModel251.get_loss_function W).map Prod.fst = ["ctc"] ∧
    ((SpeechModel25.get_loss_function W).lookup "ctc").map
        (fun f => f y_true y_pred) = some y_pred ∧
    (SpeechModel25.get_loss_function W).map Prod.fst = ["ctc"] ∧
    ((SpeechModel24.get_loss_function W).lookup "ctc").map
        (fun f => f y_true y_pred) = some y_pred ∧
    (SpeechModel24.get_loss_function W).map Prod.fst = ["ctc"] :=
  ⟨rfl, rfl, rfl, rfl, rfl, rfl, rfl, rfl⟩

/-- C8: `save_weights` with base path `P` writes exactly the two parameter
files `P ++ ".model.h5"` (training graph) and `P ++ ".model.base.h5"`
(inference graph) plus the marker text file `"epoch_" ++ name ++ ".txt"`
whose content is the base path string `P`; every other path is untouched. -/
theorem C8_save_weights_writes_three_files {W : Type} (w : W)
    (name P : String) (fs : FileSystem W) :
    (save_weights name w fs P).lookup (P ++ ".model.h5") =
      some (FileContent.weights w) ∧
    (save_weights name w fs P).lookup (P ++ ".model.base.h5") =
      some (FileContent.weights w) ∧
    (save_weights name w fs P).lookup ("epoch_" ++ name ++ ".txt") =
      some (FileContent.text P) ∧
    (∀ q : String, q ≠ P ++ ".model.h5" → q ≠ P ++ ".model.base.h5" →
      q ≠ "epoch_" ++ name ++ ".txt" →
      (save_weights name w fs P).lookup q = fs.lookup q) := by
  rw [save_weights_eq]
  refine ⟨?_, ?_, ?_, ?_⟩
  · rw [lookup_cons_ne _ _ _ _ (marker_ne_model_file name P).symm]
    rw [lookup_cons_ne _ _ _ _ (append_base_ne_append_model P).symm]
    exact lookup_cons_self _ _ _
  · rw [lookup_cons_ne _ _ _ _ (marker_ne_base_file name P).symm]
    exact lookup_cons_self _ _ _
  · exact lookup_cons_self _ _ _
  · intro q hq1 hq2 hq3
    rw [lookup_cons_ne _ _ _ _ hq3, lookup_cons_ne _ _ _ _ hq2,
      lookup_cons_ne _ _ _ _ hq1]

/-- Witness for C8 at concrete parameters, base path and a fourth,
untouched path. -/
theorem C8_save_weights_writes_three_files_witness :
    (save_weights "SpeechModel251bn" (7 : Nat) [] "ckpt").lookup
        ("ckpt" ++ ".model.h5") = some (FileContent.weights 7) ∧
    (save_weights "SpeechModel251bn" (7 : Nat) [] "ckpt").lookup "other.txt" =
      ([] : FileSystem Nat).lookup "other.txt" :=
  ⟨(C8_save_weights_writes_three_files (7 : Nat) "SpeechModel251bn" "ckpt" []).1,
   (C8_save_weights_writes_three_files (7 : Nat) "SpeechModel251bn" "ckpt"
      []).2.2.2 "other.txt" (by decide) (by decide) (by decide)⟩

/-- C9 counterexample: `save_weights` with base path "ckpt" writes only
"ckpt.model.h5", "ckpt.model.base.h5" and the marker
"epoch_SpeechModel251bn.txt"; `load_weights` with the same base path "ckpt"
opens the literal path "ckpt", which was never written, so the round trip
at the path passed to `save_weights` fails instead of succeeding. -/
theorem C9_roundtrip_counterexample :
    load_weights (save_weights "SpeechModel251bn" (0 : Nat) [] "ckpt")
      "ckpt" = Except.error "file not found" := by
  rfl

/-- C9 (amended): the round trip succeeds at the training-graph parameter
file name actually written, `P ++ ".model.h5"`: loading it restores exactly
the saved parameters, so every deterministic inference function of the
parameters produces identical output to the state before saving. -/
theorem C9_roundtrip_amended {W : Type} (w : W) (name P : String)
    (fs : FileSystem W) :
    load_weights (save_weights name w fs P) (P ++ ".model.h5") =
      Except.ok w ∧
    (∀ (Out : Type) (infer : W → Out),
      (load_weights (save_weights name w fs P) (P ++ ".model.h5")).map infer =
        Except.ok (infer w)) := by
  have hlook : (save_weights name w fs P).lookup (P ++ ".model.h5") =
      some (FileContent.weights w) := by
    rw [save_weights_eq]
    rw [lookup_cons_ne _ _ _ _ (marker_ne_model_file name P).symm]
    rw [lookup_cons_ne _ _ _ _ (append_base_ne_append_model P).symm]
    exact lookup_cons_self _ _ _
  have hload : load_weights (save_weights name w fs P) (P ++ ".model.h5") =
      Except.ok w := by
    unfold load_weights
    rw [hlook]
  refine ⟨hload, ?_⟩
  intro Out infer
  rw [hload]
  rfl

/-- C10: for every concrete topology variant and every utterance that fits
the configured maximum input length, `forward` passes the configured output
length `input_shape[0] // 8` — never a length derived from the utterance —
as the sequence length to the external `K.ctc_decode` call, with greedy
decoding, beam width 100 and one returned path. -/
theorem C10_decode_length_is_config (s : Nat × Nat × Nat) (os : Nat)
    (data : List Frame) (h : data.length ≤ s.1) :
    (forward_steps (SpeechModel251BN_init s os) data).map Prod.snd =
      Except.ok ⟨s.1 / 8, true, 100, 1⟩ ∧
    (forward_steps (SpeechModel251_init s os) data).map Prod.snd =
      Except.ok ⟨s.1 / 8, true, 100, 1⟩ ∧
    (forward_steps (SpeechModel25_init s os) data).map Prod.snd =
      Except.ok ⟨s.1 / 8, true, 100, 1⟩ ∧
    (forward_steps (SpeechModel24_init s os) data).map Prod.snd =
      Except.ok ⟨s.1 / 8, true, 100, 1⟩ := by
  refine ⟨?_, ?_, ?_, ?_⟩
  · rw [forward_steps_of_le (SpeechModel251BN_init s os) data h]
    rfl
  · rw [forward_steps_of_le (SpeechModel251_init s os) data h]
    rfl
  · rw [forward_steps_of_le (SpeechModel25_init s os) data h]
    rfl
  · rw [forward_steps_of_le (SpeechModel24_init s os) data h]
    rfl

/-- Witness for C10: a model configured for 8 input frames passes decode
length 1 for a single-frame utterance. -/
theorem C10_decode_length_is_config_witness :
    (forward_steps (SpeechModel251BN_init (8, 2, 1) 5) [[1, 2]]).map
      Prod.snd = Except.ok ⟨1, true, 100, 1⟩ :=
  (C10_decode_length_is_config (8, 2, 1) 5 [[1, 2]] (by decide)).1

end ASRT
